import Mathlib

/-!
Verification of the ventilation_system repository: a Tsukamoto-style fuzzy
inference engine (src/tsukamoto_model.py, src/ventilation_system.py),
shallowly embedded over exact rational arithmetic.  Python floats are
modelled as `ℚ`; numpy arrays as `List ℚ`; the mutable fields of class
`VentilationSystem` as a `VSState` record threaded through the methods.
-/

set_option maxRecDepth 10000

namespace Ventilation

/-- The additive constant `1e-6` placed on both trapezoid denominators in
`tsukamoto_model.py` to avoid division by zero on vertical edges. -/
def eps : ℚ := 1 / 1000000

/-- `trapmf` from src/tsukamoto_model.py:
`np.maximum(0, np.minimum(np.minimum((x - a) / (b - a + 1e-6), 1), (d - x) / (d - c + 1e-6)))`. -/
def trapmf (x a b c d : ℚ) : ℚ :=
  max 0 (min (min ((x - a) / (b - a + eps)) 1) ((d - x) / (d - c + eps)))

/-- A trapezoid parameter list `[a, b, c, d]` as passed to `trapmf`. -/
abbrev Params := ℚ × ℚ × ℚ × ℚ

/-- Apply `trapmf` at a point with a packed parameter tuple. -/
def trapmfP (x : ℚ) (p : Params) : ℚ := trapmf x p.1 p.2.1 p.2.2.1 p.2.2.2

/-- `np.linspace lo hi n`: `n` evenly spaced samples from `lo` to `hi`
inclusive, sample `i` being `lo + i * (hi - lo) / (n - 1)`. -/
def linspace (lo hi : ℚ) (n : ℕ) : List ℚ :=
  (List.range n).map fun (i : ℕ) => lo + (i : ℚ) * ((hi - lo) / ((n : ℚ) - 1))

/-- The five linguistic terms shared by the temperature, humidity and fan
variables of `VentilationSystem`. -/
inductive Term where
  | very_low
  | low
  | medium
  | high
  | very_high
  deriving DecidableEq

/-- Humidity term parameters from `set_default_mfs` (`self.hum_mfs`). -/
def humDefaults : Term → Params
  | .very_low => (-100, 0, 20, 30)
  | .low => (20, 30, 40, 50)
  | .medium => (40, 50, 60, 70)
  | .high => (60, 70, 80, 90)
  | .very_high => (80, 90, 100, 1000)

/-- Fan term parameters from `set_default_mfs` (`self.fan_mfs`), identical to
the table in `get_fan_params`. -/
def fanDefaults : Term → Params
  | .very_low => (-100, 0, 20, 30)
  | .low => (20, 30, 40, 50)
  | .medium => (40, 50, 60, 70)
  | .high => (60, 70, 80, 90)
  | .very_high => (80, 90, 100, 1000)

/-- Temperature term parameters computed by `set_default_mfs` from
`temp_min, temp_max = self.temp_range[0], self.temp_range[1]`. -/
def tempParams (temp_min temp_max : ℚ) : Term → Params := fun t =>
  let temp_span := temp_max - temp_min
  match t with
  | .very_low =>
      (if 10 < temp_max then temp_min - temp_max ^ 4
        else temp_min - (abs temp_max + 10) ^ 4,
       temp_min,
       temp_min + 0.2 * temp_span,
       temp_min + 0.3 * temp_span)
  | .low =>
      (temp_min + 0.2 * temp_span, temp_min + 0.3 * temp_span,
       temp_min + 0.4 * temp_span, temp_min + 0.5 * temp_span)
  | .medium =>
      (temp_min + 0.4 * temp_span, temp_min + 0.5 * temp_span,
       temp_min + 0.6 * temp_span, temp_min + 0.7 * temp_span)
  | .high =>
      (temp_min + 0.6 * temp_span, temp_min + 0.7 * temp_span,
       temp_min + 0.8 * temp_span, temp_min + 0.9 * temp_span)
  | .very_high =>
      (temp_min + 0.8 * temp_span, temp_min + 0.9 * temp_span,
       temp_max, temp_max * 10)

/-- The mutable fields of a `VentilationSystem` instance.  The Python range
tuples carry a third component (the step, always 1) that is never read, so
only the first two components are recorded. -/
structure VSState where
  temp_range : ℚ × ℚ
  hum_range : ℚ × ℚ
  fan_range : ℚ × ℚ
  x1 : ℚ
  x2 : ℚ
  res : ℚ
  temperature : List ℚ
  humidity : List ℚ
  fan_speed : List ℚ
  temp_mfs : Term → Params
  hum_mfs : Term → Params
  fan_mfs : Term → Params

/-- The Boolean sample test inside `defuzz_single`:
`mf_values >= mu_target - 1e-3`. -/
def defuzzPred (mu_target : ℚ) (p : Params) (z : ℚ) : Bool :=
  decide (mu_target - 1 / 1000 ≤ trapmfP z p)

/-- `VentilationSystem.defuzz_single` in its ascending branch (the only one
ever invoked): evaluate the trapezoid over every sample of `z_values`, return
the value at the first sample whose membership reaches `mu_target - 1e-3`,
and the arithmetic mean `np.mean(z_values)` when no sample does. -/
def defuzz_single (z_values : List ℚ) (mu_target : ℚ) (p : Params) : ℚ :=
  match z_values.find? (defuzzPred mu_target p) with
  | some z => z
  | none => z_values.sum / (z_values.length : ℚ)

/-- The rule table built by `set_rules`, in source order. -/
def rules : List (Term × Term × Term) :=
  [(.very_low, .very_low, .very_low),
   (.very_low, .low, .very_low),
   (.very_low, .medium, .low),
   (.very_low, .high, .high),
   (.very_low, .very_high, .high),
   (.low, .very_low, .very_low),
   (.low, .low, .low),
   (.low, .medium, .low),
   (.low, .high, .medium),
   (.low, .very_high, .high),
   (.medium, .very_low, .low),
   (.medium, .low, .low),
   (.medium, .medium, .medium),
   (.medium, .high, .high),
   (.medium, .very_high, .high),
   (.high, .very_low, .high),
   (.high, .low, .high),
   (.high, .medium, .high),
   (.high, .high, .very_high),
   (.high, .very_high, .very_high),
   (.very_high, .very_low, .very_high),
   (.very_high, .low, .very_high),
   (.very_high, .medium, .very_high),
   (.very_high, .high, .very_high),
   (.very_high, .very_high, .very_high)]

/-- `set_default_mfs`: recompute the three term tables from the current
ranges.  The humidity and fan tables are fixed constants; the temperature
table derives from `self.temp_range`. -/
def set_default_mfs (s : VSState) : VSState :=
  { s with
    temp_mfs := tempParams s.temp_range.1 s.temp_range.2
    hum_mfs := humDefaults
    fan_mfs := fanDefaults }

/-- `VentilationSystem.__init__` for given `(start, stop)` pairs of the three
range tuples: record the ranges, sample each universe with 1000 points, and
install the default membership tables.  The dictionaries start empty in the
source and are immediately filled by `set_default_mfs`; the placeholder
tables here are likewise immediately overwritten. -/
def mkSystem (temp_range hum_range fan_range : ℚ × ℚ) : VSState :=
  set_default_mfs
    { temp_range := temp_range
      hum_range := hum_range
      fan_range := fan_range
      x1 := temp_range.1
      x2 := temp_range.2 - 1
      res := 0
      temperature := linspace temp_range.1 temp_range.2 1000
      humidity := linspace hum_range.1 hum_range.2 1000
      fan_speed := linspace fan_range.1 fan_range.2 1000
      temp_mfs := fun _ => (0, 0, 0, 0)
      hum_mfs := fun _ => (0, 0, 0, 0)
      fan_mfs := fun _ => (0, 0, 0, 0) }

/-- The default instance `VentilationSystem()` with all ranges `(0, 101, 1)`. -/
def init : VSState := mkSystem (0, 101) (0, 101) (0, 101)

/-- The default fan-speed universe `np.linspace(0, 101, 1000)`. -/
def fanU : List ℚ := linspace 0 101 1000

/-- `VentilationSystem.evaluate`: loop over the 25 rules, accumulating
`numerator += alpha * z` and `denominator += alpha`, then return
`numerator / denominator` when the denominator is nonzero and `0` otherwise. -/
def evaluate (s : VSState) (temp_val hum_val : ℚ) : ℚ :=
  let acc := rules.foldl
    (fun acc r =>
      let mu_temp := trapmfP temp_val (s.temp_mfs r.1)
      let mu_hum := trapmfP hum_val (s.hum_mfs r.2.1)
      let alpha := min mu_temp mu_hum
      let z := defuzz_single s.fan_speed alpha (s.fan_mfs r.2.2)
      (acc.1 + alpha * z, acc.2 + alpha))
    (0, 0)
  if acc.2 ≠ 0 then acc.1 / acc.2 else 0

/-- The firing strength of one rule at crisp inputs: the min t-norm of the
temperature and humidity membership degrees. -/
def ruleAlpha (s : VSState) (temp_val hum_val : ℚ) (r : Term × Term × Term) : ℚ :=
  min (trapmfP temp_val (s.temp_mfs r.1)) (trapmfP hum_val (s.hum_mfs r.2.1))

/-- The crisp consequent of one rule: inverse lookup of its fan term at the
rule's firing strength. -/
def ruleZ (s : VSState) (temp_val hum_val : ℚ) (r : Term × Term × Term) : ℚ :=
  defuzz_single s.fan_speed (ruleAlpha s temp_val hum_val r) (s.fan_mfs r.2.2)

/-- `input_temp_range` after a successful parse of the two integers `a b`:
store them in `x1, x2`, set `temp_range = (x1, x2 + 1, 1)`, rebuild the
temperature universe over the new range, and rerun `set_default_mfs`. -/
def input_temp_range (s : VSState) (a b : ℤ) : VSState :=
  set_default_mfs
    { s with
      x1 := (a : ℚ)
      x2 := (b : ℚ)
      temp_range := ((a : ℚ), (b : ℚ) + 1)
      temperature := linspace (a : ℚ) ((b : ℚ) + 1) 1000 }

/-- Python `int()` applied to an exact rational: truncation toward zero
(floor for nonnegative arguments, ceiling for negative ones). -/
def pyInt (q : ℚ) : ℤ := if 0 ≤ q then ⌊q⌋ else ⌈q⌉

/-- `VentilationSystem.is_very_high`: force `self.res` to 100 whenever
`temp >= int(self.temp_range[0] + 0.9 * (self.temp_range[1] - self.temp_range[0]))`. -/
def is_very_high (s : VSState) (temp : ℚ) : VSState :=
  if (pyInt (s.temp_range.1 + 0.9 * (s.temp_range.2 - s.temp_range.1)) : ℚ) ≤ temp
  then { s with res := 100 } else s

/-- The i-th sample of `np.linspace lo hi n`. -/
def sample (lo hi : ℚ) (n i : ℕ) : ℚ := lo + (i : ℚ) * ((hi - lo) / ((n : ℚ) - 1))

/-- trapmf output is never negative (the outer max with 0). -/
theorem trapmf_nonneg (x a b c d : ℚ) : 0 ≤ trapmf x a b c d := le_max_left 0 _

/-- trapmf output never exceeds 1 (the inner min with 1). -/
theorem trapmf_le_one (x a b c d : ℚ) : trapmf x a b c d ≤ 1 :=
  max_le (by norm_num) ((min_le_left _ _).trans (min_le_right _ _))

theorem trapmfP_nonneg (x : ℚ) (p : Params) : 0 ≤ trapmfP x p :=
  trapmf_nonneg x p.1 p.2.1 p.2.2.1 p.2.2.2

theorem trapmfP_le_one (x : ℚ) (p : Params) : trapmfP x p ≤ 1 :=
  trapmf_le_one x p.1 p.2.1 p.2.2.1 p.2.2.2

/-- A foldl accumulating two running sums equals the pair of list sums. -/
theorem foldl_pair_sum {α : Type} (f g : α → ℚ) (l : List α) :
    ∀ n d : ℚ, l.foldl (fun acc r => (acc.1 + f r, acc.2 + g r)) (n, d)
      = (n + (l.map f).sum, d + (l.map g).sum) := by
  induction l with
  | nil => intro n d; simp
  | cons a t ih =>
    intro n d
    simp only [List.foldl_cons, List.map_cons, List.sum_cons, ih]
    rw [Prod.mk.injEq]
    constructor <;> ring

/-- `evaluate` written with explicit sums over the rule list. -/
theorem evaluate_eq (s : VSState) (t h : ℚ) :
    evaluate s t h =
      if (rules.map (ruleAlpha s t h)).sum ≠ 0 then
        (rules.map fun r => ruleAlpha s t h r * ruleZ s t h r).sum /
          (rules.map (ruleAlpha s t h)).sum
      else 0 := by
  have e : evaluate s t h =
      (let acc := rules.foldl
        (fun acc r => (acc.1 + ruleAlpha s t h r * ruleZ s t h r, acc.2 + ruleAlpha s t h r))
        ((0 : ℚ), (0 : ℚ))
      if acc.2 ≠ 0 then acc.1 / acc.2 else 0) := rfl
  rw [e, foldl_pair_sum (fun r => ruleAlpha s t h r * ruleZ s t h r) (ruleAlpha s t h) rules 0 0]
  simp only [zero_add]

/-- `linspace` with n+1 points, exposed as its first sample consed onto the
remaining samples. -/
theorem linspace_succ (lo hi : ℚ) (n : ℕ) :
    linspace lo hi (n + 1) =
      lo :: (List.range n).map
        (fun (i : ℕ) => lo + ((i : ℚ) + 1) * ((hi - lo) / (((n : ℚ) + 1) - 1))) := by
  unfold linspace
  rw [List.range_succ_eq_map, List.map_cons, List.map_map]
  congr 1
  · push_cast
    ring
  · apply List.map_congr_left
    intro i _
    simp only [Function.comp_apply]
    push_cast
    ring

/-- The i-th sample belongs to the linspace list. -/
theorem linspace_mem (lo hi : ℚ) (n i : ℕ) (h : i < n) :
    sample lo hi n i ∈ linspace lo hi n :=
  List.mem_map.2 ⟨i, List.mem_range.2 h, rfl⟩

/-- linspace is nondecreasing when its step is nonnegative. -/
theorem linspace_pairwise (lo hi : ℚ) (n : ℕ) (h : 0 ≤ (hi - lo) / ((n : ℚ) - 1)) :
    (linspace lo hi n).Pairwise (· ≤ ·) := by
  unfold linspace
  refine List.Pairwise.map _ ?_ (List.pairwise_lt_range n)
  intro i j hij
  have hc : (i : ℚ) ≤ (j : ℚ) := by exact_mod_cast le_of_lt hij
  have := mul_le_mul_of_nonneg_right hc h
  linarith

/-- Every linspace sample lies between lo and hi when lo ≤ hi and there are
at least two samples. -/
theorem linspace_bounds (lo hi : ℚ) (n : ℕ) (hlo : lo ≤ hi) (hn : 2 ≤ n) :
    ∀ x ∈ linspace lo hi n, lo ≤ x ∧ x ≤ hi := by
  intro x hx
  rcases List.mem_map.1 hx with ⟨i, hmem, rfl⟩
  have hin : i < n := List.mem_range.1 hmem
  have hden : (0 : ℚ) < (n : ℚ) - 1 := by
    have h2 : (2 : ℚ) ≤ (n : ℚ) := by exact_mod_cast hn
    linarith
  have hstep : 0 ≤ (hi - lo) / ((n : ℚ) - 1) := div_nonneg (by linarith) (le_of_lt hden)
  constructor
  · have := mul_nonneg (show (0 : ℚ) ≤ (i : ℚ) by positivity) hstep
    linarith
  · have hile : (i : ℚ) ≤ (n : ℚ) - 1 := by
      have : (i : ℚ) + 1 ≤ (n : ℚ) := by exact_mod_cast hin
      linarith
    have h2 := mul_le_mul_of_nonneg_right hile hstep
    have h3 : ((n : ℚ) - 1) * ((hi - lo) / ((n : ℚ) - 1)) = hi - lo := by
      field_simp
    linarith

/-- On a nondecreasing list, find? succeeds at a value no larger than any
given member satisfying the predicate. -/
theorem find?_first_le {p : ℚ → Bool} :
    ∀ {l : List ℚ}, l.Pairwise (· ≤ ·) → ∀ {x : ℚ}, x ∈ l → p x = true →
      ∃ z, l.find? p = some z ∧ z ≤ x := by
  intro l
  induction l with
  | nil => intro _ x hx; cases hx
  | cons a t ih =>
    intro hs x hx hpx
    rcases List.pairwise_cons.1 hs with ⟨ha, ht⟩
    by_cases hpa : p a = true
    · refine ⟨a, List.find?_cons_of_pos t hpa, ?_⟩
      rcases List.mem_cons.1 hx with rfl | hxt
      · exact le_refl x
      · exact ha x hxt
    · rcases List.mem_cons.1 hx with rfl | hxt
      · exact absurd hpx hpa
      · rcases ih ht hxt hpx with ⟨z, hz, hzx⟩
        exact ⟨z, by rw [List.find?_cons_of_neg t hpa]; exact hz, hzx⟩

/-- defuzz_single when no sample passes the tolerance test: the universe mean. -/
theorem defuzz_single_of_none (z_values : List ℚ) (mu : ℚ) (p : Params)
    (h : z_values.find? (defuzzPred mu p) = none) :
    defuzz_single z_values mu p = z_values.sum / (z_values.length : ℚ) := by
  unfold defuzz_single
  rw [h]

/-- defuzz_single on a linspace universe whose first sample already passes
the tolerance test returns that first sample. -/
theorem defuzz_single_head (lo hi : ℚ) (n : ℕ) (mu : ℚ) (p : Params)
    (h : mu - 1 / 1000 ≤ trapmfP lo p) :
    defuzz_single (linspace lo hi (n + 1)) mu p = lo := by
  unfold defuzz_single
  rw [linspace_succ, List.find?_cons_of_pos _ (by simpa [defuzzPred] using h)]

/-- Gauss sum of an affine map over `List.range`. -/
theorem range_map_affine_sum (lo step : ℚ) (n : ℕ) :
    ((List.range n).map fun (i : ℕ) => lo + (i : ℚ) * step).sum
      = (n : ℚ) * lo + ((n : ℚ) * ((n : ℚ) - 1) / 2) * step := by
  induction n with
  | zero => simp
  | succ m ih =>
    rw [List.range_succ, List.map_append, List.sum_append, ih]
    simp only [List.map_cons, List.map_nil, List.sum_cons, List.sum_nil]
    push_cast
    ring

/-- The default fan universe sums to 50500. -/
theorem fanU_sum : fanU.sum = 50500 := by
  have e : fanU
      = (List.range 1000).map fun (i : ℕ) => 0 + (i : ℚ) * ((101 - 0) / (((1000 : ℕ) : ℚ) - 1)) := rfl
  rw [e, range_map_affine_sum]
  norm_num

/-- The default fan universe has 1000 samples. -/
theorem fanU_length : fanU.length = 1000 := by
  simp [fanU, linspace]

/-- Each default fan term attains membership exactly 1 at an explicit
universe sample not exceeding 100: the plateau of every fan trapezoid
contains sample points. -/
theorem fan_plateau (f : Term) :
    ∃ i : ℕ, i < 1000 ∧ sample 0 101 1000 i ≤ 100 ∧
      trapmfP (sample 0 101 1000 i) (fanDefaults f) = 1 := by
  cases f with
  | very_low =>
    exact ⟨1, by norm_num, by norm_num [sample],
      by norm_num [sample, trapmfP, fanDefaults, trapmf, eps, min_def, max_def]⟩
  | low =>
    exact ⟨300, by norm_num, by norm_num [sample],
      by norm_num [sample, trapmfP, fanDefaults, trapmf, eps, min_def, max_def]⟩
  | medium =>
    exact ⟨500, by norm_num, by norm_num [sample],
      by norm_num [sample, trapmfP, fanDefaults, trapmf, eps, min_def, max_def]⟩
  | high =>
    exact ⟨700, by norm_num, by norm_num [sample],
      by norm_num [sample, trapmfP, fanDefaults, trapmf, eps, min_def, max_def]⟩
  | very_high =>
    exact ⟨891, by norm_num, by norm_num [sample],
      by norm_num [sample, trapmfP, fanDefaults, trapmf, eps, min_def, max_def]⟩

/-- With the default fan table and a firing strength at most 1, defuzz_single
returns a universe sample between 0 and 100. -/
theorem defuzz_single_bounds (f : Term) (mu : ℚ) (hmu : mu ≤ 1) :
    0 ≤ defuzz_single fanU mu (fanDefaults f) ∧
      defuzz_single fanU mu (fanDefaults f) ≤ 100 := by
  rcases fan_plateau f with ⟨i, hin, hle, hone⟩
  have hpred : defuzzPred mu (fanDefaults f) (sample 0 101 1000 i) = true := by
    simp only [defuzzPred, decide_eq_true_eq, hone]
    linarith
  have hmem : sample 0 101 1000 i ∈ fanU := linspace_mem 0 101 1000 i hin
  have hpair : fanU.Pairwise (· ≤ ·) := linspace_pairwise 0 101 1000 (by norm_num)
  rcases find?_first_le hpair hmem hpred with ⟨z, hfind, hz⟩
  have hzmem : z ∈ fanU := List.mem_of_find?_eq_some hfind
  have hzb := linspace_bounds 0 101 1000 (by norm_num) (by norm_num) z hzmem
  have e : defuzz_single fanU mu (fanDefaults f) = z := by
    unfold defuzz_single
    rw [hfind]
  rw [e]
  exact ⟨hzb.1, hz.trans hle⟩

/-- Temperature term layout as worded in the spec: five overlapping
trapezoids at fractional offsets 2/10 through 9/10 of the span, an open left
shoulder at `min - max^4` when `max > 10` (else `min - (|max| + 10)^4`) and
an open right shoulder at `max * 10`. -/
def tempParamsSpec (mn mx : ℚ) : Term → Params := fun t =>
  let span := mx - mn
  match t with
  | .very_low =>
      (if 10 < mx then mn - mx ^ 4 else mn - (abs mx + 10) ^ 4,
       mn, mn + (2 / 10) * span, mn + (3 / 10) * span)
  | .low =>
      (mn + (2 / 10) * span, mn + (3 / 10) * span,
       mn + (4 / 10) * span, mn + (5 / 10) * span)
  | .medium =>
      (mn + (4 / 10) * span, mn + (5 / 10) * span,
       mn + (6 / 10) * span, mn + (7 / 10) * span)
  | .high =>
      (mn + (6 / 10) * span, mn + (7 / 10) * span,
       mn + (8 / 10) * span, mn + (9 / 10) * span)
  | .very_high =>
      (mn + (8 / 10) * span, mn + (9 / 10) * span, mx, mx * 10)

/-- C1: evaluate processes all 25 rules of the table, taking for each rule
the firing strength as the min of the temperature and humidity membership
degrees, the crisp value z by inverse lookup of the rule's fan term at that
strength, accumulating alpha * z and alpha, and returns the ratio of the two
sums when the denominator is nonzero and 0 when it is zero. -/
theorem evaluate_rule_sums (s : VSState) (temp_val hum_val : ℚ) :
    rules.length = 25 ∧
    evaluate s temp_val hum_val =
      if (rules.map (ruleAlpha s temp_val hum_val)).sum ≠ 0 then
        (rules.map fun r =>
          ruleAlpha s temp_val hum_val r * ruleZ s temp_val hum_val r).sum /
          (rules.map (ruleAlpha s temp_val hum_val)).sum
      else 0 :=
  ⟨rfl, evaluate_eq s temp_val hum_val⟩

/-- C5: set_default_mfs derives the five temperature trapezoids from the
configured range exactly as the spec words it: fractional offsets of the
span, the very_low outer left edge from the quartic formula, and the
very_high outer right edge at max * 10. -/
theorem set_default_mfs_temp_params (s : VSState) :
    (set_default_mfs s).temp_mfs = tempParamsSpec s.temp_range.1 s.temp_range.2 := by
  funext t
  show tempParams s.temp_range.1 s.temp_range.2 t
      = tempParamsSpec s.temp_range.1 s.temp_range.2 t
  rcases t <;>
    simp only [tempParams, tempParamsSpec] <;>
    norm_num [Prod.ext_iff]

/-- C6: for ordered parameters with nondegenerate rising and falling edges,
the trapezoid is 0 at or left of a, 0 at or right of d, and 1 on the plateau
[b, c] shrunk by the eps = 1e-6 perturbation that the formula adds to both
denominators. -/
theorem trapmf_shape (a b c d x : ℚ) (hab : a ≤ b) (hbc : b ≤ c) (hcd : c ≤ d)
    (hba : a < b) (hdc : c < d) :
    (x ≤ a → trapmf x a b c d = 0) ∧
    (d ≤ x → trapmf x a b c d = 0) ∧
    (b + eps ≤ x → x ≤ c - eps → trapmf x a b c d = 1) := by
  have heps : (0 : ℚ) < eps := by norm_num [eps]
  have hd1 : (0 : ℚ) < b - a + eps := by linarith
  have hd2 : (0 : ℚ) < d - c + eps := by linarith
  refine ⟨?_, ?_, ?_⟩
  · intro hx
    have h1 : (x - a) / (b - a + eps) ≤ 0 :=
      div_nonpos_iff.2 (Or.inr ⟨by linarith, le_of_lt hd1⟩)
    have hm : min (min ((x - a) / (b - a + eps)) 1) ((d - x) / (d - c + eps)) ≤ 0 :=
      le_trans (le_trans (min_le_left _ _) (min_le_left _ _)) h1
    exact max_eq_left hm
  · intro hx
    have h2 : (d - x) / (d - c + eps) ≤ 0 :=
      div_nonpos_iff.2 (Or.inr ⟨by linarith, le_of_lt hd2⟩)
    have hm : min (min ((x - a) / (b - a + eps)) 1) ((d - x) / (d - c + eps)) ≤ 0 :=
      le_trans (min_le_right _ _) h2
    exact max_eq_left hm
  · intro hx1 hx2
    unfold trapmf
    rw [min_eq_right ((one_le_div hd1).2 (by linarith)),
      min_eq_left ((one_le_div hd2).2 (by linarith)),
      max_eq_right zero_le_one]

/-- Witness for trapmf_shape at the ordered parameters (0, 1, 2, 3):
membership is 1 at 3/2, 0 at -1 and 0 at 5. -/
theorem trapmf_shape_witness :
    trapmf (3 / 2) 0 1 2 3 = 1 ∧ trapmf (-1) 0 1 2 3 = 0 ∧ trapmf 5 0 1 2 3 = 0 :=
  ⟨(trapmf_shape 0 1 2 3 (3 / 2) (by norm_num) (by norm_num) (by norm_num)
      (by norm_num) (by norm_num)).2.2 (by norm_num [eps]) (by norm_num [eps]),
   (trapmf_shape 0 1 2 3 (-1) (by norm_num) (by norm_num) (by norm_num)
      (by norm_num) (by norm_num)).1 (by norm_num),
   (trapmf_shape 0 1 2 3 5 (by norm_num) (by norm_num) (by norm_num)
      (by norm_num) (by norm_num)).2.1 (by norm_num)⟩

/-- C2 counterexample: alpha = 2001/2000 is strictly greater than 1, hence
greater than the maximum membership any trapmf can attain (trapmfP_le_one),
yet invert on the very_low fan term returns sample 0 — whose membership
100000000/100000001 lies within the 1e-3 tolerance of alpha — and not the
universe mean 101/2. -/
theorem defuzz_above_max_not_mean :
    defuzz_single fanU (2001 / 2000) (fanDefaults Term.very_low) = 0 ∧
    trapmfP 0 (fanDefaults Term.very_low) ≤ 1 ∧
    (1 : ℚ) < 2001 / 2000 ∧
    (0 : ℚ) ≠ 101 / 2 := by
  refine ⟨?_, trapmfP_le_one 0 _, by norm_num, by norm_num⟩
  have e : fanU = linspace 0 101 (999 + 1) := rfl
  rw [e]
  apply defuzz_single_head
  norm_num [trapmfP, fanDefaults, trapmf, eps, min_def, max_def]

/-- C2 amended: the scan accepts the first sample with membership at least
alpha - 1e-3; when alpha exceeds an upper bound M of the term's membership
over the universe by more than that tolerance, no sample passes and invert
returns the arithmetic mean of the universe, 101/2 on the default fan
universe. -/
theorem defuzz_fallback_mean (mu M : ℚ) (p : Params)
    (hM : ∀ z ∈ fanU, trapmfP z p ≤ M) (hmu : M + 1 / 1000 < mu) :
    fanU.find? (defuzzPred mu p) = none ∧
    defuzz_single fanU mu p = fanU.sum / (fanU.length : ℚ) ∧
    defuzz_single fanU mu p = 101 / 2 := by
  have hnone : fanU.find? (defuzzPred mu p) = none := by
    rw [List.find?_eq_none]
    intro z hz
    simp only [defuzzPred, decide_eq_true_eq, not_le]
    have := hM z hz
    linarith
  refine ⟨hnone, defuzz_single_of_none _ _ _ hnone, ?_⟩
  rw [defuzz_single_of_none _ _ _ hnone, fanU_sum, fanU_length]
  norm_num

/-- Witness for defuzz_fallback_mean: every membership of the very_low fan
term is at most 1, and alpha = 2 exceeds 1 + 1e-3, so invert returns 50.5. -/
theorem defuzz_fallback_mean_witness :
    (1 + 1 / 1000 : ℚ) < 2 ∧
      defuzz_single fanU 2 (fanDefaults Term.very_low) = 101 / 2 :=
  ⟨by norm_num,
   (defuzz_fallback_mean 2 1 (fanDefaults Term.very_low)
      (fun z _ => trapmfP_le_one z (fanDefaults Term.very_low)) (by norm_num)).2.2⟩

/-- C9: on the default fan universe, every fan term reaches membership
alpha - 1e-3 at some sample for any alpha in [0, 1] (its plateau contains
sample points), so the mean fallback branch is unreachable and invert
returns an actual universe sample. -/
theorem defuzz_no_fallback (f : Term) (mu : ℚ) (h0 : 0 ≤ mu) (h1 : mu ≤ 1) :
    fanU.find? (defuzzPred mu (fanDefaults f)) ≠ none ∧
    defuzz_single fanU mu (fanDefaults f) ∈ fanU := by
  rcases fan_plateau f with ⟨i, hin, _, hone⟩
  have hpred : defuzzPred mu (fanDefaults f) (sample 0 101 1000 i) = true := by
    simp only [defuzzPred, decide_eq_true_eq, hone]
    linarith
  have hmem : sample 0 101 1000 i ∈ fanU := linspace_mem 0 101 1000 i hin
  have hne : fanU.find? (defuzzPred mu (fanDefaults f)) ≠ none := by
    intro hnone
    exact absurd hpred (List.find?_eq_none.1 hnone _ hmem)
  refine ⟨hne, ?_⟩
  rcases hfind : fanU.find? (defuzzPred mu (fanDefaults f)) with _ | z
  · exact absurd hfind hne
  · have e : defuzz_single fanU mu (fanDefaults f) = z := by
      unfold defuzz_single
      rw [hfind]
    rw [e]
    exact List.mem_of_find?_eq_some hfind

/-- Witness for defuzz_no_fallback at the medium fan term and alpha = 1/2. -/
theorem defuzz_no_fallback_witness :
    (0 : ℚ) ≤ 1 / 2 ∧ (1 / 2 : ℚ) ≤ 1 ∧
      defuzz_single fanU (1 / 2) (fanDefaults Term.medium) ∈ fanU :=
  ⟨by norm_num, by norm_num,
   (defuzz_no_fallback Term.medium (1 / 2) (by norm_num) (by norm_num)).2⟩

/-- C10: trapezoid memberships are nonnegative, so for alpha at most 1e-3
the scan threshold is nonpositive and the very first universe sample
passes: invert returns sample 0 of the default fan universe, the crisp
value 0, not the fallback mean. -/
theorem defuzz_zero_alpha (f : Term) (mu : ℚ) (hmu : mu ≤ 1 / 1000) :
    defuzz_single fanU mu (fanDefaults f) = 0 ∧ fanU.head? = some 0 := by
  constructor
  · have e : fanU = linspace 0 101 (999 + 1) := rfl
    rw [e]
    apply defuzz_single_head
    have := trapmfP_nonneg 0 (fanDefaults f)
    linarith
  · have e : fanU = linspace 0 101 (999 + 1) := rfl
    rw [e, linspace_succ]
    rfl

/-- Witness for defuzz_zero_alpha: a rule that does not fire (alpha = 0) on
the very_low fan term is mapped to the crisp value 0. -/
theorem defuzz_zero_alpha_witness :
    (0 : ℚ) ≤ 1 / 1000 ∧ defuzz_single fanU 0 (fanDefaults Term.very_low) = 0 :=
  ⟨by norm_num, (defuzz_zero_alpha Term.very_low 0 (by norm_num)).1⟩

/-- C7: input_temp_range with entered integers (a, b) rebuilds the
temperature universe as 1000 linear samples over [a, b + 1] and recomputes
the five temperature term parameters from the new range, while the humidity
and fan ranges, universes and membership curves are untouched — pointwise
identical — on any state whose humidity and fan tables are the defaults, as
every constructed state's are. -/
theorem input_temp_range_frame (s : VSState) (a b : ℤ)
    (hh : s.hum_mfs = humDefaults) (hf : s.fan_mfs = fanDefaults) :
    (input_temp_range s a b).temperature = linspace (a : ℚ) ((b : ℚ) + 1) 1000 ∧
    (input_temp_range s a b).temp_mfs = tempParams (a : ℚ) ((b : ℚ) + 1) ∧
    (∀ t x, trapmfP x ((input_temp_range s a b).hum_mfs t) = trapmfP x (s.hum_mfs t)) ∧
    (∀ t x, trapmfP x ((input_temp_range s a b).fan_mfs t) = trapmfP x (s.fan_mfs t)) ∧
    (input_temp_range s a b).humidity = s.humidity ∧
    (input_temp_range s a b).fan_speed = s.fan_speed ∧
    (input_temp_range s a b).hum_range = s.hum_range ∧
    (input_temp_range s a b).fan_range = s.fan_range := by
  unfold input_temp_range set_default_mfs
  refine ⟨rfl, rfl, ?_, ?_, rfl, rfl, rfl, rfl⟩
  · intro t x
    rw [hh]
  · intro t x
    rw [hf]

/-- Witness for input_temp_range_frame on the default instance with the
entered range (-30, 30). -/
theorem input_temp_range_frame_witness :
    init.hum_mfs = humDefaults ∧
    (input_temp_range init (-30) 30).humidity = init.humidity ∧
    (input_temp_range init (-30) 30).temperature
      = linspace ((-30 : ℤ) : ℚ) (((30 : ℤ) : ℚ) + 1) 1000 := by
  have h := input_temp_range_frame init (-30) 30 rfl rfl
  exact ⟨rfl, h.2.2.2.2.1, h.1⟩

/-- The default instance stores the range pair (0, 101). -/
theorem init_range : init.temp_range = (0, 101) := rfl

/-- The default instance installs the temperature table for the range (0, 101). -/
theorem init_temp_mfs : init.temp_mfs = tempParams 0 101 := rfl

/-- The default instance installs the default humidity table. -/
theorem init_hum_mfs : init.hum_mfs = humDefaults := rfl

/-- The default instance installs the default fan table. -/
theorem init_fan_mfs : init.fan_mfs = fanDefaults := rfl

/-- The default instance samples the fan universe over [0, 101]. -/
theorem init_fan_speed : init.fan_speed = fanU := rfl

/-- The application threshold expression of is_very_high on the default
instance evaluates to 90.9. -/
theorem init_threshold :
    init.temp_range.1 + 0.9 * (init.temp_range.2 - init.temp_range.1) = 909 / 10 := by
  rw [init_range]
  norm_num

/-- Python int() truncates 90.9 down to 90. -/
theorem pyInt_909 : pyInt (909 / 10) = 90 := by
  unfold pyInt
  rw [if_pos (by norm_num)]
  norm_num

/-- C8 counterexample: with the default stored range (0, 101) the claimed
threshold min + 0.9 * (max - min) is 90.9, yet the code truncates it with
int() to 90, so the override already fires at temp = 90 — strictly below the
claimed threshold — changing res from 0 to 100 instead of leaving it
unchanged. -/
theorem is_very_high_truncation_cex :
    init.temp_range.1 + 0.9 * (init.temp_range.2 - init.temp_range.1) = 909 / 10 ∧
    (90 : ℚ) < 909 / 10 ∧
    init.res = 0 ∧
    (is_very_high init 90).res = 100 := by
  refine ⟨init_threshold, by norm_num, rfl, ?_⟩
  unfold is_very_high
  rw [init_threshold, pyInt_909, if_pos (by norm_num)]

/-- C8 amended: the override threshold is the toward-zero integer
truncation int(min + 0.9 * (max - min)) of the stored range pair
(temp_range[0], temp_range[1]): res is forced to 100 exactly when temp
reaches that truncated integer, and left unchanged below it. -/
theorem is_very_high_spec (s : VSState) (temp : ℚ) :
    ((pyInt (s.temp_range.1 + 0.9 * (s.temp_range.2 - s.temp_range.1)) : ℚ) ≤ temp →
      (is_very_high s temp).res = 100) ∧
    (temp < (pyInt (s.temp_range.1 + 0.9 * (s.temp_range.2 - s.temp_range.1)) : ℚ) →
      (is_very_high s temp).res = s.res) := by
  unfold is_very_high
  constructor
  · intro h
    rw [if_pos h]
  · intro h
    rw [if_neg (not_le.2 h)]

/-- Witness for is_very_high_spec on the default instance: the override
fires at 95 and leaves res unchanged at 5. -/
theorem is_very_high_spec_witness :
    (is_very_high init 95).res = 100 ∧ (is_very_high init 5).res = init.res := by
  constructor
  · exact (is_very_high_spec init 95).1 (by rw [init_threshold, pyInt_909]; norm_num)
  · exact (is_very_high_spec init 5).2 (by rw [init_threshold, pyInt_909]; norm_num)

/-- C3 counterexample: at inputs (0, 0) on the default instance the rule
(very_low, very_low, very_low) fires with strength 100000000/100000001 > 0,
but its inverse lookup lands on the crisp value 0 (sample 0 of the fan
universe already passes the tolerance test), so evaluate returns 0 even
though not every rule's firing strength is 0 — refuting the claimed "if and
only if". -/
theorem evaluate_zero_with_fired_rule :
    evaluate init 0 0 = 0 ∧
    (Term.very_low, Term.very_low, Term.very_low) ∈ rules ∧
    ruleAlpha init 0 0 (Term.very_low, Term.very_low, Term.very_low) ≠ 0 := by
  have hA1 : ruleAlpha init 0 0 (Term.very_low, Term.very_low, Term.very_low)
      = 100000000 / 100000001 := by
    unfold ruleAlpha
    rw [init_temp_mfs, init_hum_mfs]
    norm_num [tempParams, humDefaults, trapmfP, trapmf, eps, min_def, max_def]
  have hA0 : ∀ tm hm fm : Term, tm ≠ Term.very_low ∨ hm ≠ Term.very_low →
      ruleAlpha init 0 0 (tm, hm, fm) = 0 := by
    intro tm hm fm hor
    have hT : ∀ t : Term, t ≠ Term.very_low → trapmfP 0 (init.temp_mfs t) = 0 := by
      intro t ht
      rw [init_temp_mfs]
      cases t
      · exact absurd rfl ht
      all_goals norm_num [tempParams, trapmfP, trapmf, eps, min_def, max_def]
    have hH : ∀ t : Term, t ≠ Term.very_low → trapmfP 0 (init.hum_mfs t) = 0 := by
      intro t ht
      rw [init_hum_mfs]
      cases t
      · exact absurd rfl ht
      all_goals norm_num [humDefaults, trapmfP, trapmf, eps, min_def, max_def]
    unfold ruleAlpha
    rcases hor with h | h
    · rw [hT tm h]
      exact min_eq_left (trapmfP_nonneg _ _)
    · rw [hH hm h]
      exact min_eq_right (trapmfP_nonneg _ _)
  have hZ1 : ruleZ init 0 0 (Term.very_low, Term.very_low, Term.very_low) = 0 := by
    unfold ruleZ
    rw [hA1, init_fan_speed, init_fan_mfs]
    have e : fanU = linspace 0 101 (999 + 1) := rfl
    rw [e]
    apply defuzz_single_head
    norm_num [trapmfP, fanDefaults, trapmf, eps, min_def, max_def]
  have hnum : (rules.map fun r => ruleAlpha init 0 0 r * ruleZ init 0 0 r).sum = 0 := by
    apply List.sum_eq_zero
    intro x hx
    rcases List.mem_map.1 hx with ⟨r, hr, rfl⟩
    fin_cases hr
    · rw [hZ1, mul_zero]
    all_goals rw [hA0 _ _ _ (by decide), zero_mul]
  have hden : (rules.map (ruleAlpha init 0 0)).sum = 100000000 / 100000001 := by
    have e : rules.map (ruleAlpha init 0 0)
        = ruleAlpha init 0 0 (Term.very_low, Term.very_low, Term.very_low) ::
          (rules.tail.map (ruleAlpha init 0 0)) := rfl
    have htail : (rules.tail.map (ruleAlpha init 0 0)).sum = 0 := by
      apply List.sum_eq_zero
      intro x hx
      rcases List.mem_map.1 hx with ⟨r, hr, rfl⟩
      fin_cases hr <;> exact hA0 _ _ _ (by decide)
    rw [e, List.sum_cons, hA1, htail, add_zero]
  refine ⟨?_, by decide, ?_⟩
  · rw [evaluate_eq, hden, hnum, if_pos (show (100000000 / 100000001 : ℚ) ≠ 0 by norm_num)]
    norm_num
  · rw [hA1]
    norm_num

/-- C3 amended (the direction that holds): when every rule's firing strength
is zero the accumulated denominator is zero and evaluate returns 0. -/
theorem evaluate_zero_of_no_fire (s : VSState) (t h : ℚ)
    (ha : ∀ r ∈ rules, ruleAlpha s t h r = 0) :
    evaluate s t h = 0 := by
  rw [evaluate_eq]
  have hden : (rules.map (ruleAlpha s t h)).sum = 0 := by
    apply List.sum_eq_zero
    intro x hx
    rcases List.mem_map.1 hx with ⟨r, hr, rfl⟩
    exact ha r hr
  simp [hden]

/-- Witness for evaluate_zero_of_no_fire: at temperature 2000, far beyond
every temperature term's support, no rule fires and evaluate returns 0. -/
theorem evaluate_zero_of_no_fire_witness : evaluate init 2000 50 = 0 := by
  apply evaluate_zero_of_no_fire
  intro r hr
  have ht : trapmfP 2000 (init.temp_mfs r.1) = 0 := by
    rw [init_temp_mfs]
    rcases r with ⟨tm, hm, fm⟩
    cases tm <;>
      norm_num [tempParams, trapmfP, trapmf, eps, min_def, max_def]
  unfold ruleAlpha
  rw [ht]
  exact min_eq_left (trapmfP_nonneg _ _)

/-- C4: for any crisp inputs, including out-of-range values, evaluate on a
state carrying the default fan universe and fan table returns a single value
in [0, 100]. -/
theorem evaluate_in_range (s : VSState) (t h : ℚ)
    (hfs : s.fan_speed = fanU) (hfm : s.fan_mfs = fanDefaults) :
    0 ≤ evaluate s t h ∧ evaluate s t h ≤ 100 := by
  rw [evaluate_eq]
  have hA0 : ∀ r ∈ rules, 0 ≤ ruleAlpha s t h r := fun r _ =>
    le_min (trapmfP_nonneg _ _) (trapmfP_nonneg _ _)
  have hA1 : ∀ r ∈ rules, ruleAlpha s t h r ≤ 1 := fun r _ =>
    (min_le_left _ _).trans (trapmfP_le_one _ _)
  have hZ : ∀ r ∈ rules, 0 ≤ ruleZ s t h r ∧ ruleZ s t h r ≤ 100 := by
    intro r hr
    have e : ruleZ s t h r
        = defuzz_single fanU (ruleAlpha s t h r) (fanDefaults r.2.2) := by
      unfold ruleZ
      rw [hfs, hfm]
    rw [e]
    exact defuzz_single_bounds r.2.2 (ruleAlpha s t h r) (hA1 r hr)
  by_cases hd : (rules.map (ruleAlpha s t h)).sum ≠ 0
  · rw [if_pos hd]
    have hdnn : 0 ≤ (rules.map (ruleAlpha s t h)).sum := by
      apply List.sum_nonneg
      intro x hx
      rcases List.mem_map.1 hx with ⟨r, hr, rfl⟩
      exact hA0 r hr
    have hdpos : 0 < (rules.map (ruleAlpha s t h)).sum := lt_of_le_of_ne hdnn (Ne.symm hd)
    have hnnn : 0 ≤ (rules.map fun r => ruleAlpha s t h r * ruleZ s t h r).sum := by
      apply List.sum_nonneg
      intro x hx
      rcases List.mem_map.1 hx with ⟨r, hr, rfl⟩
      exact mul_nonneg (hA0 r hr) (hZ r hr).1
    have hub : (rules.map fun r => ruleAlpha s t h r * ruleZ s t h r).sum
        ≤ 100 * (rules.map (ruleAlpha s t h)).sum := by
      rw [← List.sum_map_mul_left]
      apply List.sum_le_sum
      intro r hr
      calc ruleAlpha s t h r * ruleZ s t h r
          ≤ ruleAlpha s t h r * 100 :=
            mul_le_mul_of_nonneg_left (hZ r hr).2 (hA0 r hr)
        _ = 100 * ruleAlpha s t h r := mul_comm _ _
    refine ⟨div_nonneg hnnn hdnn, ?_⟩
    rw [div_le_iff₀ hdpos]
    exact hub
  · rw [if_neg hd]
    norm_num

/-- Witness for evaluate_in_range on the default instance at (50, 50). -/
theorem evaluate_in_range_witness :
    init.fan_speed = fanU ∧ init.fan_mfs = fanDefaults ∧
    0 ≤ evaluate init 50 50 ∧ evaluate init 50 50 ≤ 100 := by
  have h := evaluate_in_range init 50 50 rfl rfl
  exact ⟨rfl, rfl, h.1, h.2⟩

end Ventilation
